import Mathlib

/-!
# Verification of the Bags launch/fee orchestration layer

Shallow embedding of `src/api/bags.ts` (class `BagsProtocol`): the token
launch sequence (`launchToken` and its steps `getOrCreateConfig`,
`createTokenInfo`, `setupFeeSharing`, `sendTransaction`) and the fee-claim
aggregation (`claimFees`).

The protocol SDK and the RPC connection are opaque collaborators of the
orchestration code, so they are modelled as an explicit environment of
response functions (`Env`, `Conn`).  Every network interaction the
orchestrator performs is recorded in a trace of `NetEvent`s, and each
embedded operation returns its trace next to its `Except` result; a
JavaScript `throw` is `Except.error`, which — exactly as in the source,
which has no `try`/`catch` around these steps — discards any value built
so far and propagates unchanged to the caller.

JavaScript-specific semantics kept by the embedding:
* `x || d` for an optional numeric `x` treats `0` as absent (`orDefaultInt`,
  `orDefaultRat`);
* `String.prototype.replace` with a string pattern replaces only the first
  occurrence (`removeFirst`);
* `fetch` rejects only on network errors; a non-success HTTP status still
  resolves to a response whose body can be read (`Env.fetch` returning
  `Except.ok` regardless of `FetchResponse.status`).
-/

namespace Bags

/-- A signed (versioned) transaction, identified by an id; its contents are
opaque to the orchestrator. -/
structure Tx where
  id : Nat
deriving DecidableEq, Repr

/-- An on-chain transaction error as reported by confirmation
(`confirmation.value.err` in web3.js): an object, hence always truthy when
present. -/
inductive ChainErr where
  | instructionError (index : Nat) (message : String)
  | other (message : String)
deriving DecidableEq, Repr

/-- Result of `connection.confirmTransaction`: `err` is `null` on success. -/
structure Confirmation where
  err : Option ChainErr
deriving DecidableEq, Repr

/-- `connection.getLatestBlockhash()`. -/
structure Blockhash where
  blockhash : String
  lastValidBlockHeight : Nat
deriving DecidableEq, Repr

/-- The RPC connection: latest blockhash, submission (yielding a signature)
and confirmation polling (keyed by the signature). -/
structure Conn where
  latestBlockhash : Blockhash
  send : Tx → String
  confirm : String → Confirmation

/-- Response of `sdk.config.getOrCreateConfig`: a config key, plus a
creation transaction exactly when the configuration did not already exist. -/
structure ConfigResponse where
  configKey : String
  transaction : Option Tx
deriving DecidableEq, Repr

/-- Response of `fetch`: an HTTP status and the body bytes (`blob()`). -/
structure FetchResponse where
  status : Nat
  body : List Nat
deriving DecidableEq, Repr

/-- Request passed to `sdk.tokenLaunch.createTokenInfoAndMetadata`. -/
structure TokenInfoRequest where
  image : List Nat
  name : String
  symbol : String
  description : String
  telegram : Option String
  twitter : Option String
  website : Option String
deriving DecidableEq, Repr

/-- Result of `sdk.tokenLaunch.createTokenInfoAndMetadata`. -/
structure TokenInfoResult where
  tokenMint : String
  tokenMetadata : String
deriving DecidableEq, Repr

/-- One `{ wallet, bps }` entry of a fee-share configuration. -/
structure FeeShareUser where
  wallet : String
  bps : Int
deriving DecidableEq, Repr

/-- Request passed to `sdk.config.createFeeShareConfig`. -/
structure FeeShareRequest where
  users : List FeeShareUser
  payer : String
  baseMint : String
  quoteMint : String
deriving DecidableEq, Repr

/-- Response of `sdk.config.createFeeShareConfig`: a config key, plus a
creation transaction exactly when the fee-share config did not exist. -/
structure FeeShareResponse where
  configKey : String
  transaction : Option Tx
deriving DecidableEq, Repr

/-- Request passed to `sdk.tokenLaunch.createLaunchTransaction`. -/
structure LaunchTxRequest where
  metadataUrl : String
  tokenMint : String
  launchWallet : String
  initialBuyLamports : ℚ
  configKey : String
deriving DecidableEq, Repr

/-- One claimable fee position (`sdk.fee.getAllClaimablePositions`):
amounts from the virtual pool and the settled (damm) pool. -/
structure ClaimablePosition where
  baseMint : String
  virtualPoolClaimableAmount : Nat
  dammPoolClaimableAmount : Nat
deriving DecidableEq, Repr

/-- A network interaction performed by the orchestrator. -/
inductive NetEvent where
  | configFetch
  | txSend (t : Tx)
  | fetchImage (url : String)
  | tokenInfoCreate (req : TokenInfoRequest)
  | walletLookup (handle : String)
  | feeShareCreate (req : FeeShareRequest)
  | launchTxBuild (req : LaunchTxRequest)
  | claimTxRequest (baseMint : String)
deriving DecidableEq, Repr

/-- The failure modes of the orchestration layer (each a `throw` site of the
source, or an error propagated from a collaborator). -/
inductive BagsError where
  | transactionRejected (e : ChainErr)
  | partnerWalletNotFound (handle : String)
  | fetchFailed (e : String)
deriving DecidableEq, Repr

/-- The environment of collaborator responses: the SDK, the image source and
the RPC connection, plus the launching keypair's public key. -/
structure Env where
  ownerWallet : String
  conn : Conn
  configResp : ConfigResponse
  fetch : String → Except String FetchResponse
  createTokenInfoAndMetadata : TokenInfoRequest → TokenInfoResult
  walletForTwitter : String → Option String
  createFeeShareConfig : FeeShareRequest → FeeShareResponse
  createLaunchTransaction : LaunchTxRequest → Tx
  positions : List ClaimablePosition
  getClaimTransaction : ClaimablePosition → List Tx

/-- `TokenLaunchParams` of `src/api/bags.ts`. -/
structure TokenLaunchParams where
  name : String
  symbol : String
  description : String
  imageUrl : Option String := none
  imageFile : Option (List Nat) := none
  twitter : Option String := none
  telegram : Option String := none
  website : Option String := none
  initialBuyAmountSol : Option ℚ := none
  feeShareTwitter : Option String := none
  creatorFeeBps : Option Int := none
  feeShareBps : Option Int := none
deriving DecidableEq, Repr

/-- `LaunchResult` of `src/api/bags.ts`. -/
structure LaunchResult where
  tokenMint : String
  signature : String
  metadataUrl : String
  bagsUrl : String
  configKey : String
  feeShareWallet : Option String
deriving DecidableEq, Repr

/-- JavaScript `x || d` for an optional integer `x`: `undefined` and `0` are
falsy, any other number is returned unchanged. -/
def orDefaultInt (x : Option Int) (d : Int) : Int :=
  match x with
  | none => d
  | some v => if v = 0 then d else v

/-- JavaScript `x || d` for an optional numeric (float) `x`, rationals
standing in for JS numbers: `undefined` and `0` are falsy. -/
def orDefaultRat (x : Option ℚ) (d : ℚ) : ℚ :=
  match x with
  | none => d
  | some v => if v = 0 then d else v

/-- `LAMPORTS_PER_SOL` of `@solana/web3.js`. -/
def LAMPORTS_PER_SOL : ℚ := 1000000000

/-- Embeds `BagsProtocol.sendTransaction` (bags.ts lines 230-249): fetch the
latest blockhash, send the signed transaction (the `skipPreflight` /
`maxRetries: 3` options are network-layer delivery knobs with no effect on
the returned value), confirm at the `processed` commitment against that
blockhash, and throw when the confirmation carries an on-chain error;
otherwise return the signature. -/
def sendTransaction (conn : Conn) (t : Tx) : List NetEvent × Except BagsError String :=
  let _blockhash := conn.latestBlockhash
  let signature := conn.send t
  let confirmation := conn.confirm signature
  match confirmation.err with
  | some e => ([NetEvent.txSend t], Except.error (BagsError.transactionRejected e))
  | none => ([NetEvent.txSend t], Except.ok signature)

/-- Embeds `BagsProtocol.getOrCreateConfig` (bags.ts lines 119-137): query
the SDK for the wallet's configuration; when the response carries a creation
transaction, sign and submit it; either way return the response itself. -/
def getOrCreateConfig (env : Env) : List NetEvent × Except BagsError ConfigResponse :=
  let configResponse := env.configResp
  match configResponse.transaction with
  | some tx =>
    (match sendTransaction env.conn tx with
     | (evs, Except.error e) => (NetEvent.configFetch :: evs, Except.error e)
     | (evs, Except.ok _) => (NetEvent.configFetch :: evs, Except.ok configResponse))
  | none => ([NetEvent.configFetch], Except.ok configResponse)

/-- The fixed placeholder image of bags.ts line 156. -/
def defaultImage : String :=
  "https://img.freepik.com/premium-vector/white-abstract-vactor-background-design_665257-153.jpg"

/-- JavaScript `s.toUpperCase()` (per-character ASCII uppercasing). -/
def jsUpper (s : String) : String :=
  String.mk (s.data.map Char.toUpper)

/-- JavaScript `String.prototype.replace` with the one-character string
pattern `c` and an empty replacement: removes the FIRST occurrence of `c`,
wherever it is, and nothing else. -/
def removeFirst (c : Char) : List Char → List Char
  | [] => []
  | x :: xs => if x = c then xs else x :: removeFirst c xs

/-- `params.symbol.toUpperCase().replace('$', '')` (bags.ts line 164). -/
def normalizeSymbol (s : String) : String :=
  String.mk (removeFirst '$' (jsUpper s).data)

/-- The image-resolution step of `BagsProtocol.createTokenInfo` (bags.ts
lines 145-159): a supplied remote URL is fetched (its response body becomes
the blob, with no status check — `fetch` rejects only on network errors); a
supplied local buffer is wrapped directly; otherwise the fixed default
placeholder is fetched. -/
def resolveImage (env : Env) (params : TokenLaunchParams) :
    List NetEvent × Except BagsError (List Nat) :=
  match params.imageUrl with
  | some url =>
    (match env.fetch url with
     | Except.error e => ([NetEvent.fetchImage url], Except.error (BagsError.fetchFailed e))
     | Except.ok resp => ([NetEvent.fetchImage url], Except.ok resp.body))
  | none =>
    match params.imageFile with
    | some bytes => ([], Except.ok bytes)
    | none =>
      match env.fetch defaultImage with
      | Except.error e =>
        ([NetEvent.fetchImage defaultImage], Except.error (BagsError.fetchFailed e))
      | Except.ok resp => ([NetEvent.fetchImage defaultImage], Except.ok resp.body)

/-- Embeds `BagsProtocol.createTokenInfo` (bags.ts lines 142-173): resolve
the image blob, then upload name, normalized symbol, description and socials
through the SDK, producing the token mint and metadata URI. -/
def createTokenInfo (env : Env) (params : TokenLaunchParams) :
    List NetEvent × Except BagsError TokenInfoResult :=
  match resolveImage env params with
  | (evs, Except.error e) => (evs, Except.error e)
  | (evs, Except.ok imageBlob) =>
    let req : TokenInfoRequest :=
      { image := imageBlob
        name := params.name
        symbol := normalizeSymbol params.symbol
        description := params.description
        telegram := params.telegram
        twitter := params.twitter
        website := params.website }
    (evs ++ [NetEvent.tokenInfoCreate req], Except.ok (env.createTokenInfoAndMetadata req))

/-- The wrapped-SOL mint hard-coded as the quote asset (bags.ts line 209). -/
def wSOLMint : String := "So11111111111111111111111111111111111111112"

/-- Return value of `BagsProtocol.setupFeeSharing`. -/
structure FeeShareSetupResult where
  configKey : String
  feeShareWallet : String
deriving DecidableEq, Repr

/-- Embeds `BagsProtocol.setupFeeSharing` (bags.ts lines 178-225): look up
the partner wallet for the Twitter handle (throwing when none is
registered), create the two-entry fee-share configuration
`[(owner, creatorFeeBps), (partner, feeShareBps)]` against the token's base
mint and wrapped SOL, sign and submit its creation transaction when the
response carries one, and return the config key and partner wallet.  The
bps arguments are forwarded exactly as given: the source performs no
validation on them. -/
def setupFeeSharing (env : Env) (twitterHandle : String)
    (creatorFeeBps feeShareBps : Int) (tokenMint : String) :
    List NetEvent × Except BagsError FeeShareSetupResult :=
  match env.walletForTwitter twitterHandle with
  | none =>
    ([NetEvent.walletLookup twitterHandle],
     Except.error (BagsError.partnerWalletNotFound twitterHandle))
  | some feeShareWallet =>
    let req : FeeShareRequest :=
      { users := [⟨env.ownerWallet, creatorFeeBps⟩, ⟨feeShareWallet, feeShareBps⟩]
        payer := env.ownerWallet
        baseMint := tokenMint
        quoteMint := wSOLMint }
    let feeShareConfig := env.createFeeShareConfig req
    match feeShareConfig.transaction with
    | some tx =>
      (match sendTransaction env.conn tx with
       | (evs, Except.error e) =>
         (NetEvent.walletLookup twitterHandle :: NetEvent.feeShareCreate req :: evs,
          Except.error e)
       | (evs, Except.ok _) =>
         (NetEvent.walletLookup twitterHandle :: NetEvent.feeShareCreate req :: evs,
          Except.ok ⟨feeShareConfig.configKey, feeShareWallet⟩))
    | none =>
      ([NetEvent.walletLookup twitterHandle, NetEvent.feeShareCreate req],
       Except.ok ⟨feeShareConfig.configKey, feeShareWallet⟩)

/-- Embeds `BagsProtocol.launchToken` (bags.ts lines 58-114): resolve the
launch configuration, create token info and metadata, set up fee sharing
when `feeShareTwitter` is present (with `creatorFeeBps || 1000` and
`feeShareBps || 9000`, the fee-share config key replacing the launch one),
build the launch transaction with `initialBuyAmountSol || 0.01` converted to
lamports, sign it, submit it, and assemble the `LaunchResult`. -/
def launchToken (env : Env) (params : TokenLaunchParams) :
    List NetEvent × Except BagsError LaunchResult :=
  match getOrCreateConfig env with
  | (evs1, Except.error e) => (evs1, Except.error e)
  | (evs1, Except.ok configResponse) =>
    match createTokenInfo env params with
    | (evs2, Except.error e) => (evs1 ++ evs2, Except.error e)
    | (evs2, Except.ok tokenInfo) =>
      let feeStep : List NetEvent × Except BagsError (String × Option String) :=
        match params.feeShareTwitter with
        | some handle =>
          (match setupFeeSharing env handle
              (orDefaultInt params.creatorFeeBps 1000)
              (orDefaultInt params.feeShareBps 9000)
              tokenInfo.tokenMint with
           | (evs3, Except.error e) => (evs3, Except.error e)
           | (evs3, Except.ok r) => (evs3, Except.ok (r.configKey, some r.feeShareWallet)))
        | none => ([], Except.ok (configResponse.configKey, none))
      match feeStep with
      | (evs3, Except.error e) => (evs1 ++ evs2 ++ evs3, Except.error e)
      | (evs3, Except.ok (finalConfigKey, feeShareWallet)) =>
        let launchReq : LaunchTxRequest :=
          { metadataUrl := tokenInfo.tokenMetadata
            tokenMint := tokenInfo.tokenMint
            launchWallet := env.ownerWallet
            initialBuyLamports :=
              orDefaultRat params.initialBuyAmountSol (1 / 100) * LAMPORTS_PER_SOL
            configKey := finalConfigKey }
        let launchTx := env.createLaunchTransaction launchReq
        match sendTransaction env.conn launchTx with
        | (evs4, Except.error e) =>
          (evs1 ++ evs2 ++ evs3 ++ NetEvent.launchTxBuild launchReq :: evs4, Except.error e)
        | (evs4, Except.ok signature) =>
          (evs1 ++ evs2 ++ evs3 ++ NetEvent.launchTxBuild launchReq :: evs4,
           Except.ok
             { tokenMint := tokenInfo.tokenMint
               signature := signature
               metadataUrl := tokenInfo.tokenMetadata
               bagsUrl := "https://bags.fm/" ++ tokenInfo.tokenMint
               configKey := finalConfigKey
               feeShareWallet := feeShareWallet })

/-- The inner `for (const tx of claimTxs)` loop of `BagsProtocol.claimFees`
(bags.ts lines 309-314): sign and submit each claim transaction in order,
collecting signatures; a thrown submission error unwinds immediately,
abandoning the collected signatures. -/
def claimPositionTxs (env : Env) (txs : List Tx) :
    List NetEvent × Except BagsError (List String) :=
  match txs with
  | [] => ([], Except.ok [])
  | t :: rest =>
    match sendTransaction env.conn t with
    | (evs, Except.error e) => (evs, Except.error e)
    | (evs, Except.ok sig) =>
      match claimPositionTxs env rest with
      | (evs2, Except.error e) => (evs ++ evs2, Except.error e)
      | (evs2, Except.ok sigs) => (evs ++ evs2, Except.ok (sig :: sigs))

/-- The outer `for (const position of targetPositions)` loop of
`BagsProtocol.claimFees` (bags.ts lines 301-315): for each position request
its claim transaction set from the SDK, then submit each transaction; a
thrown error unwinds the whole loop. -/
def claimLoop (env : Env) (ps : List ClaimablePosition) :
    List NetEvent × Except BagsError (List String) :=
  match ps with
  | [] => ([], Except.ok [])
  | p :: rest =>
    match claimPositionTxs env (env.getClaimTransaction p) with
    | (evs, Except.error e) => (NetEvent.claimTxRequest p.baseMint :: evs, Except.error e)
    | (evs, Except.ok sigs) =>
      match claimLoop env rest with
      | (evs2, Except.error e) =>
        (NetEvent.claimTxRequest p.baseMint :: (evs ++ evs2), Except.error e)
      | (evs2, Except.ok sigs2) =>
        (NetEvent.claimTxRequest p.baseMint :: (evs ++ evs2), Except.ok (sigs ++ sigs2))

/-- `positions.filter(p => p.baseMint === tokenMint)` when a token filter is
given, all positions otherwise (bags.ts lines 295-297). -/
def targetPositions (env : Env) (tokenMint : Option String) : List ClaimablePosition :=
  match tokenMint with
  | some m => env.positions.filter (fun p => p.baseMint == m)
  | none => env.positions

/-- Embeds `BagsProtocol.claimFees` (bags.ts lines 284-318): fetch all
claimable positions, return `[]` when there are none, filter by the token
mint when one is given, then claim position by position. -/
def claimFees (env : Env) (tokenMint : Option String) :
    List NetEvent × Except BagsError (List String) :=
  if env.positions.length = 0 then ([], Except.ok [])
  else claimLoop env (targetPositions env tokenMint)

/-! ## Helper definitions and lemmas over the traces -/

/-- The transactions submitted in a trace. -/
def txSends (evs : List NetEvent) : List Tx :=
  evs.filterMap (fun ev =>
    match ev with
    | NetEvent.txSend t => some t
    | _ => none)

/-- The fee-share configuration requests issued in a trace. -/
def feeShareRequests (evs : List NetEvent) : List FeeShareRequest :=
  evs.filterMap (fun ev =>
    match ev with
    | NetEvent.feeShareCreate req => some req
    | _ => none)

/-- The image fetches issued in a trace. -/
def imageFetches (evs : List NetEvent) : List String :=
  evs.filterMap (fun ev =>
    match ev with
    | NetEvent.fetchImage url => some url
    | _ => none)

/-- The symbols submitted to token-info creation in a trace. -/
def submittedSymbols (evs : List NetEvent) : List String :=
  evs.filterMap (fun ev =>
    match ev with
    | NetEvent.tokenInfoCreate req => some req.symbol
    | _ => none)

theorem sendTransaction_fst (conn : Conn) (t : Tx) :
    (sendTransaction conn t).1 = [NetEvent.txSend t] := by
  cases h : (conn.confirm (conn.send t)).err <;> simp [sendTransaction, h]

theorem getOrCreateConfig_ok_eq (env : Env) (r : ConfigResponse)
    (h : (getOrCreateConfig env).2 = Except.ok r) : r = env.configResp := by
  unfold getOrCreateConfig at h
  cases htx : env.configResp.transaction with
  | none => simp [htx] at h; exact h.symm
  | some tx =>
    rcases hs : sendTransaction env.conn tx with ⟨evs, res⟩
    cases res with
    | error e => simp [htx, hs] at h
    | ok s => simp [htx, hs] at h; exact h.symm

/-! ## C5: transaction submitter outcome classification -/

/-- C5: for every signed transaction handed to the submitter, when
confirmation at the `processed` commitment reports a non-empty on-chain
error value the submission fails with `transactionRejected` carrying the raw
error payload and no signature is returned; when confirmation reports no
error, the submission signature is returned. -/
theorem sendTransaction_classifies_confirmation (conn : Conn) (t : Tx) :
    sendTransaction conn t =
      match (conn.confirm (conn.send t)).err with
      | some e => ([NetEvent.txSend t], Except.error (BagsError.transactionRejected e))
      | none => ([NetEvent.txSend t], Except.ok (conn.send t)) := by
  cases h : (conn.confirm (conn.send t)).err <;> simp [sendTransaction, h]

/-! ## C8: image resolution priority -/

/-- C8: image resolution follows strict priority: a supplied remote URL is
fetched even when a local buffer is also supplied; otherwise a supplied
local byte buffer is wrapped directly with no fetch at all; otherwise the
fixed default placeholder URL is fetched. -/
theorem resolveImage_priority (env : Env) (params : TokenLaunchParams) :
    resolveImage env params =
      match params.imageUrl, params.imageFile with
      | some url, _ =>
        ([NetEvent.fetchImage url],
         match env.fetch url with
         | Except.error e => Except.error (BagsError.fetchFailed e)
         | Except.ok resp => Except.ok resp.body)
      | none, some bytes => ([], Except.ok bytes)
      | none, none =>
        ([NetEvent.fetchImage defaultImage],
         match env.fetch defaultImage with
         | Except.error e => Except.error (BagsError.fetchFailed e)
         | Except.ok resp => Except.ok resp.body) := by
  cases hurl : params.imageUrl with
  | some url =>
    cases hf : env.fetch url <;> simp [resolveImage, hurl, hf]
  | none =>
    cases hfile : params.imageFile with
    | some bytes => simp [resolveImage, hurl, hfile]
    | none => cases hf : env.fetch defaultImage <;> simp [resolveImage, hurl, hfile, hf]

/-! ## C7: launch-configuration resolver submits iff a transaction is returned -/

/-- C7: the configuration resolver signs and submits a creation transaction
exactly when the protocol response carries one; when it carries none the
existing handle is reused with no submission.  Two consecutive resolve calls
for the same wallet, the second finding the configuration present (same
config key, no transaction in the response), yield the same configuration
handle and issue at most one creation transaction in total. -/
theorem getOrCreateConfig_idempotent_reuse (env1 env2 : Env) (r1 : ConfigResponse)
    (hkey : env2.configResp.configKey = env1.configResp.configKey)
    (hnone : env2.configResp.transaction = none)
    (hok1 : (getOrCreateConfig env1).2 = Except.ok r1) :
    txSends (getOrCreateConfig env1).1 =
      (match env1.configResp.transaction with
       | some t => [t]
       | none => []) ∧
    txSends (getOrCreateConfig env2).1 = [] ∧
    (getOrCreateConfig env2).2 = Except.ok env2.configResp ∧
    r1.configKey = env2.configResp.configKey ∧
    (txSends (getOrCreateConfig env1).1).length +
      (txSends (getOrCreateConfig env2).1).length ≤ 1 := by
  have h2trace : (getOrCreateConfig env2).1 = [NetEvent.configFetch] := by
    simp [getOrCreateConfig, hnone]
  have h2res : (getOrCreateConfig env2).2 = Except.ok env2.configResp := by
    simp [getOrCreateConfig, hnone]
  have h1trace : txSends (getOrCreateConfig env1).1 =
      (match env1.configResp.transaction with
       | some t => [t]
       | none => []) := by
    cases htx : env1.configResp.transaction with
    | none => simp [getOrCreateConfig, htx, txSends]
    | some tx =>
      rcases hs : sendTransaction env1.conn tx with ⟨evs, res⟩
      have hevs : evs = [NetEvent.txSend tx] := by
        have := sendTransaction_fst env1.conn tx
        rw [hs] at this
        exact this
      cases res <;> simp [getOrCreateConfig, htx, hs, hevs, txSends]
  refine ⟨h1trace, ?_, h2res, ?_, ?_⟩
  · rw [h2trace]; simp [txSends]
  · have := getOrCreateConfig_ok_eq env1 r1 hok1
    rw [this, hkey]
  · rw [h1trace, h2trace]
    cases env1.configResp.transaction <;> simp [txSends]

/-- A connection whose confirmations always succeed. -/
def connAlwaysOk : Conn :=
  { latestBlockhash := ⟨"bh1", 10⟩
    send := fun t => "sig".append (Nat.repr t.id)
    confirm := fun _ => ⟨none⟩ }

/-- Concrete environment in which the wallet has no configuration yet: the
SDK response carries a creation transaction. -/
def envFreshConfig : Env :=
  { ownerWallet := "ownerPk"
    conn := connAlwaysOk
    configResp := ⟨"cfgKey1", some ⟨7⟩⟩
    fetch := fun _ => Except.ok ⟨200, [1, 2]⟩
    createTokenInfoAndMetadata := fun _ => ⟨"mint1", "meta1"⟩
    walletForTwitter := fun _ => some "partnerPk"
    createFeeShareConfig := fun _ => ⟨"fsKey1", none⟩
    createLaunchTransaction := fun _ => ⟨9⟩
    positions := []
    getClaimTransaction := fun _ => [] }

/-- The same wallet on a later call: the configuration now exists, so the
SDK response carries the same key and no transaction. -/
def envExistingConfig : Env :=
  { envFreshConfig with configResp := ⟨"cfgKey1", none⟩ }

theorem getOrCreateConfig_idempotent_reuse_witness :
    txSends (getOrCreateConfig envFreshConfig).1 =
      (match envFreshConfig.configResp.transaction with
       | some t => [t]
       | none => []) ∧
    txSends (getOrCreateConfig envExistingConfig).1 = [] ∧
    (getOrCreateConfig envExistingConfig).2 = Except.ok envExistingConfig.configResp ∧
    ConfigResponse.configKey ⟨"cfgKey1", some ⟨7⟩⟩ = envExistingConfig.configResp.configKey ∧
    (txSends (getOrCreateConfig envFreshConfig).1).length +
      (txSends (getOrCreateConfig envExistingConfig).1).length ≤ 1 :=
  getOrCreateConfig_idempotent_reuse envFreshConfig envExistingConfig
    ⟨"cfgKey1", some ⟨7⟩⟩ rfl rfl rfl

/-! ## Trace-shape lemmas -/

theorem resolveImage_trace_shape (env : Env) (params : TokenLaunchParams) :
    (resolveImage env params).1 = [] ∨
    ∃ url, (resolveImage env params).1 = [NetEvent.fetchImage url] := by
  cases hu : params.imageUrl with
  | some url =>
    right
    refine ⟨url, ?_⟩
    cases hf : env.fetch url <;> simp [resolveImage, hu, hf]
  | none =>
    cases hfile : params.imageFile with
    | some b =>
      left
      simp [resolveImage, hu, hfile]
    | none =>
      right
      refine ⟨defaultImage, ?_⟩
      cases hf : env.fetch defaultImage <;> simp [resolveImage, hu, hfile, hf]

theorem getOrCreateConfig_trace_shape (env : Env) :
    (getOrCreateConfig env).1 = [NetEvent.configFetch] ∨
    ∃ t, (getOrCreateConfig env).1 = [NetEvent.configFetch, NetEvent.txSend t] := by
  cases htx : env.configResp.transaction with
  | none =>
    left
    simp [getOrCreateConfig, htx]
  | some tx =>
    right
    refine ⟨tx, ?_⟩
    rcases hs : sendTransaction env.conn tx with ⟨evs, res⟩
    have hevs : evs = [NetEvent.txSend tx] := by
      have h := sendTransaction_fst env.conn tx
      rw [hs] at h
      exact h
    cases res <;> simp [getOrCreateConfig, htx, hs, hevs]

theorem submittedSymbols_resolveImage (env : Env) (params : TokenLaunchParams) :
    submittedSymbols (resolveImage env params).1 = [] := by
  rcases resolveImage_trace_shape env params with h | ⟨url, h⟩ <;>
    simp [h, submittedSymbols]

/-- Every symbol submitted to token-info creation is the source's
normalization of the input symbol. -/
theorem submittedSymbols_createTokenInfo (env : Env) (params : TokenLaunchParams)
    (s : String) (hs : s ∈ submittedSymbols (createTokenInfo env params).1) :
    s = normalizeSymbol params.symbol := by
  unfold createTokenInfo at hs
  rcases hr : resolveImage env params with ⟨evs, res⟩
  have hevs : submittedSymbols evs = [] := by
    have h := submittedSymbols_resolveImage env params
    rw [hr] at h
    exact h
  cases res with
  | error e =>
    rw [hr] at hs
    simp only at hs
    rw [hevs] at hs
    simp at hs
  | ok blob =>
    rw [hr] at hs
    simp only at hs
    rw [submittedSymbols, List.filterMap_append] at hs
    rw [submittedSymbols] at hevs
    rw [hevs] at hs
    simp [submittedSymbols] at hs
    exact hs

/-! ## C6: symbol normalization (corrected) -/

/-- Modelled from the spec's words (for comparison with the source's
`normalizeSymbol`): "Symbol normalization: uppercase, and any leading `$`
stripped before submission" — uppercase the input, then drop every leading
dollar sign. -/
def specNormalizeSymbol (s : String) : String :=
  String.mk ((jsUpper s).data.dropWhile (fun c => c == '$'))

/-- C6 counterexample: for the input symbol `"$$test"` the source submits
`"$TEST"` (JavaScript `replace('$', '')` removes only the first dollar
sign), while the claimed normalization (uppercase, all leading `$` stripped)
gives `"TEST"`. -/
theorem symbol_normalization_counterexample :
    submittedSymbols (createTokenInfo envFreshConfig
      { name := "Test", symbol := "$$test", description := "d" }).1 = ["$TEST"] ∧
    specNormalizeSymbol "$$test" = "TEST" ∧
    ("$TEST" : String) ≠ "TEST" := by
  refine ⟨by decide, by decide, by decide⟩

/-- The first occurrence of `c`, wherever it sits in the list, is removed;
everything before and after it is kept. -/
theorem removeFirst_eq (c : Char) (l : List Char) :
    removeFirst c l =
      l.takeWhile (fun x => x != c) ++ (l.dropWhile (fun x => x != c)).tail := by
  induction l with
  | nil => rfl
  | cons x xs ih =>
    by_cases h : x = c
    · subst h
      simp [removeFirst, List.takeWhile_cons, List.dropWhile_cons]
    · simp [removeFirst, h, List.takeWhile_cons, List.dropWhile_cons, ih]

/-- C6 (amended): the symbol submitted with the token metadata is the input
uppercased with the FIRST `$` occurrence — wherever it sits, not only
leading ones, and only that one — removed; in particular the input
`"$test"` is submitted as `"TEST"`. -/
theorem symbol_normalization_first_dollar (env : Env) (params : TokenLaunchParams) :
    (∀ s, s ∈ submittedSymbols (createTokenInfo env params).1 →
       s = String.mk
         ((jsUpper params.symbol).data.takeWhile (fun x => x != '$') ++
          ((jsUpper params.symbol).data.dropWhile (fun x => x != '$')).tail)) ∧
    normalizeSymbol "$test" = "TEST" := by
  constructor
  · intro s hs
    rw [submittedSymbols_createTokenInfo env params s hs, normalizeSymbol, removeFirst_eq]
  · decide

/-! ## Fee-share request extraction lemmas -/

theorem feeShareRequests_getOrCreateConfig (env : Env) :
    feeShareRequests (getOrCreateConfig env).1 = [] := by
  rcases getOrCreateConfig_trace_shape env with h | ⟨t, h⟩ <;> simp [h, feeShareRequests]

theorem feeShareRequests_createTokenInfo (env : Env) (params : TokenLaunchParams) :
    feeShareRequests (createTokenInfo env params).1 = [] := by
  rcases hr : resolveImage env params with ⟨evs, res⟩
  have hevs : feeShareRequests evs = [] := by
    have h := resolveImage_trace_shape env params
    rw [hr] at h
    rcases h with h | ⟨url, h⟩ <;> simp only at h <;> simp [h, feeShareRequests]
  rw [feeShareRequests] at hevs
  cases res with
  | error e => simp [createTokenInfo, hr, feeShareRequests, hevs]
  | ok blob => simp [createTokenInfo, hr, feeShareRequests, hevs]

theorem feeShareRequests_setupFeeSharing (env : Env) (handle : String)
    (a b : Int) (m : String) (r : FeeShareRequest)
    (hmem : r ∈ feeShareRequests (setupFeeSharing env handle a b m).1) :
    ∃ w, env.walletForTwitter handle = some w ∧
      r = { users := [⟨env.ownerWallet, a⟩, ⟨w, b⟩]
            payer := env.ownerWallet
            baseMint := m
            quoteMint := wSOLMint } := by
  cases hw : env.walletForTwitter handle with
  | none => simp [setupFeeSharing, hw, feeShareRequests] at hmem
  | some w =>
    refine ⟨w, rfl, ?_⟩
    simp only [setupFeeSharing, hw] at hmem
    rcases ht : (env.createFeeShareConfig
        { users := [⟨env.ownerWallet, a⟩, ⟨w, b⟩]
          payer := env.ownerWallet
          baseMint := m
          quoteMint := wSOLMint }).transaction with _ | tx
    · rw [ht] at hmem
      simp [feeShareRequests] at hmem
      exact hmem
    · simp only [ht] at hmem
      rcases hs : sendTransaction env.conn tx with ⟨evs, res⟩
      have hevs : evs = [NetEvent.txSend tx] := by
        have h := sendTransaction_fst env.conn tx
        rw [hs] at h
        exact h
      rw [hs] at hmem
      subst hevs
      cases res <;> simp [feeShareRequests] at hmem <;> exact hmem

/-- Every fee-share configuration request a launch issues carries exactly
the pair `(creatorFeeBps || 1000, feeShareBps || 9000)` for the owner and
the partner wallet resolved from the handle. -/
theorem feeShareRequests_launchToken (env : Env) (params : TokenLaunchParams)
    (r : FeeShareRequest) (hmem : r ∈ feeShareRequests (launchToken env params).1) :
    ∃ handle w, params.feeShareTwitter = some handle ∧
      env.walletForTwitter handle = some w ∧
      r.users = [⟨env.ownerWallet, orDefaultInt params.creatorFeeBps 1000⟩,
                 ⟨w, orDefaultInt params.feeShareBps 9000⟩] := by
  have h1 := feeShareRequests_getOrCreateConfig env
  have h2 := feeShareRequests_createTokenInfo env params
  rw [feeShareRequests] at h1 h2
  rcases hg : getOrCreateConfig env with ⟨evs1, res1⟩
  rw [hg] at h1
  cases res1 with
  | error e =>
    simp only [launchToken, hg] at hmem
    simp [feeShareRequests, h1] at hmem
  | ok cfg =>
    rcases hc : createTokenInfo env params with ⟨evs2, res2⟩
    rw [hc] at h2
    cases res2 with
    | error e =>
      simp only [launchToken, hg, hc] at hmem
      simp [feeShareRequests, h1, h2] at hmem
    | ok ti =>
      cases hft : params.feeShareTwitter with
      | none =>
        simp only [launchToken, hg, hc, hft] at hmem
        generalize hL : env.createLaunchTransaction
            { metadataUrl := ti.tokenMetadata
              tokenMint := ti.tokenMint
              launchWallet := env.ownerWallet
              initialBuyLamports :=
                orDefaultRat params.initialBuyAmountSol (1 / 100) * LAMPORTS_PER_SOL
              configKey := cfg.configKey } = ltx at hmem
        rcases hst : sendTransaction env.conn ltx with ⟨evs4, res4⟩
        have hevs4 : evs4 = [NetEvent.txSend ltx] := by
          have h := sendTransaction_fst env.conn ltx
          rw [hst] at h
          exact h
        rw [hst] at hmem
        subst hevs4
        cases res4 <;> simp [feeShareRequests, h1, h2] at hmem
      | some handle =>
        rcases hsf : setupFeeSharing env handle
            (orDefaultInt params.creatorFeeBps 1000)
            (orDefaultInt params.feeShareBps 9000) ti.tokenMint with ⟨evs3, res3⟩
        have h3 : ∀ r', r' ∈ evs3.filterMap (fun ev =>
            match ev with
            | NetEvent.feeShareCreate req => some req
            | _ => none) → ∃ w, env.walletForTwitter handle = some w ∧
              r' = { users := [⟨env.ownerWallet, orDefaultInt params.creatorFeeBps 1000⟩,
                               ⟨w, orDefaultInt params.feeShareBps 9000⟩]
                     payer := env.ownerWallet
                     baseMint := ti.tokenMint
                     quoteMint := wSOLMint } := by
          intro r' hr'
          apply feeShareRequests_setupFeeSharing env handle _ _ ti.tokenMint r'
          rw [feeShareRequests, hsf]
          exact hr'
        cases res3 with
        | error e =>
          simp only [launchToken, hg, hc, hft, hsf] at hmem
          simp [feeShareRequests, h1, h2] at hmem
          obtain ⟨w, hw, hreq⟩ := h3 r (by simpa [feeShareRequests] using hmem)
          exact ⟨handle, w, rfl, hw, by rw [hreq]⟩
        | ok fsr =>
          simp only [launchToken, hg, hc, hft, hsf] at hmem
          generalize hL : env.createLaunchTransaction
              { metadataUrl := ti.tokenMetadata
                tokenMint := ti.tokenMint
                launchWallet := env.ownerWallet
                initialBuyLamports :=
                  orDefaultRat params.initialBuyAmountSol (1 / 100) * LAMPORTS_PER_SOL
                configKey := fsr.configKey } = ltx at hmem
          rcases hst : sendTransaction env.conn ltx with ⟨evs4, res4⟩
          have hevs4 : evs4 = [NetEvent.txSend ltx] := by
            have h := sendTransaction_fst env.conn ltx
            rw [hst] at h
            exact h
          rw [hst] at hmem
          subst hevs4
          cases res4 <;>
            · simp [feeShareRequests, h1, h2] at hmem
              obtain ⟨w, hw, hreq⟩ := h3 r (by simpa [feeShareRequests] using hmem)
              exact ⟨handle, w, rfl, hw, by rw [hreq]⟩

/-! ## C1: basis-point pair passed to fee-share setup (corrected) -/

/-- Launch parameters with `feeShareTwitter` present and exactly one bps
value supplied. -/
def paramsOneBps : TokenLaunchParams :=
  { name := "Test", symbol := "TST", description := "d",
    feeShareTwitter := some "alice", creatorFeeBps := some 2000 }

/-- C1 counterexample: with `feeShareTwitter` present, `creatorFeeBps =
2000` and `feeShareBps` absent, the pair `launchToken` passes to fee-share
setup is `(2000, 9000)` — the absent value is replaced by its fixed default
`9000`, not by `10000 - 2000 = 8000` — and its sum `11000` violates the
claimed `creatorBps + shareBps == 10000` invariant. -/
theorem launchToken_bps_sum_counterexample :
    feeShareRequests (launchToken envFreshConfig paramsOneBps).1 =
      [{ users := [⟨"ownerPk", 2000⟩, ⟨"partnerPk", 9000⟩]
         payer := "ownerPk", baseMint := "mint1", quoteMint := wSOLMint }] ∧
    (2000 : Int) + 9000 ≠ 10000 := by
  refine ⟨by decide, by decide⟩

/-- C1 (amended): with `feeShareTwitter` present, the basis-point pair that
`launchToken` passes to fee-share setup (observed in the fee-share
configuration request it issues) is `(creatorFeeBps || 1000, feeShareBps ||
9000)`: each absent — or zero — value is replaced by its own fixed default,
independently of the other.  When both are absent the pair is `(1000,
9000)`, whose sum is 10000; when exactly one is supplied the missing one is
NOT derived as `10000 -` the supplied one, so the sum can differ from
10000. -/
theorem launchToken_feeShare_bps_defaults (env : Env) (params : TokenLaunchParams)
    (r : FeeShareRequest) (hmem : r ∈ feeShareRequests (launchToken env params).1) :
    r.users.map FeeShareUser.bps =
      [orDefaultInt params.creatorFeeBps 1000, orDefaultInt params.feeShareBps 9000] ∧
    (params.creatorFeeBps = none → params.feeShareBps = none →
      r.users.map FeeShareUser.bps = [1000, 9000]) := by
  obtain ⟨handle, w, -, -, husers⟩ := feeShareRequests_launchToken env params r hmem
  constructor
  · rw [husers]
    rfl
  · intro h1 h2
    rw [husers, h1, h2]
    rfl

/-- Launch parameters with `feeShareTwitter` present and both bps values
absent. -/
def paramsFeeShareDefaults : TokenLaunchParams :=
  { name := "Test", symbol := "TST", description := "d",
    feeShareTwitter := some "alice" }

/-- The fee-share request `launchToken envFreshConfig paramsFeeShareDefaults`
issues. -/
def reqDefaults : FeeShareRequest :=
  { users := [⟨"ownerPk", 1000⟩, ⟨"partnerPk", 9000⟩]
    payer := "ownerPk", baseMint := "mint1", quoteMint := wSOLMint }

theorem launchToken_feeShare_bps_defaults_witness :
    reqDefaults.users.map FeeShareUser.bps =
      [orDefaultInt paramsFeeShareDefaults.creatorFeeBps 1000,
       orDefaultInt paramsFeeShareDefaults.feeShareBps 9000] ∧
    (paramsFeeShareDefaults.creatorFeeBps = none →
     paramsFeeShareDefaults.feeShareBps = none →
       reqDefaults.users.map FeeShareUser.bps = [1000, 9000]) :=
  launchToken_feeShare_bps_defaults envFreshConfig paramsFeeShareDefaults reqDefaults
    (by decide)

/-! ## C2: no InvalidSplit validation in fee-share setup (corrected) -/

/-- C2 counterexample: for the explicitly supplied pair `(-5, 99)` — a
negative value whose sum is far from 10000 — fee-share setup does NOT fail:
it performs the partner wallet lookup and the fee-share configuration
creation (two network calls) and returns successfully, forwarding the
invalid pair unchanged. -/
theorem setupFeeSharing_invalid_pair_counterexample :
    setupFeeSharing envFreshConfig "bob" (-5) 99 "mintZ" =
      ([NetEvent.walletLookup "bob",
        NetEvent.feeShareCreate
          { users := [⟨"ownerPk", -5⟩, ⟨"partnerPk", 99⟩]
            payer := "ownerPk", baseMint := "mintZ", quoteMint := wSOLMint }],
       Except.ok ⟨"fsKey1", "partnerPk"⟩) ∧
    ((-5 : Int) < 0 ∧ (-5 : Int) + 99 ≠ 10000) := by
  refine ⟨rfl, by decide, by decide⟩

/-- C2 (amended): fee-share setup performs NO validation of the bps pair.
Whatever the supplied values — negative ones and pairs not summing to 10000
included — the first thing it does is the partner wallet network lookup,
and when a wallet is registered it issues the fee-share configuration
creation request carrying the pair unchanged.  No `InvalidSplit`-style
failure exists anywhere in the flow. -/
theorem setupFeeSharing_no_validation (env : Env) (handle : String)
    (a b : Int) (m : String) :
    (setupFeeSharing env handle a b m).1.head? = some (NetEvent.walletLookup handle) ∧
    (∀ w, env.walletForTwitter handle = some w →
       NetEvent.feeShareCreate
         { users := [⟨env.ownerWallet, a⟩, ⟨w, b⟩]
           payer := env.ownerWallet, baseMint := m, quoteMint := wSOLMint }
         ∈ (setupFeeSharing env handle a b m).1) ∧
    (∀ e, (setupFeeSharing env handle a b m).2 = Except.error e →
       (∃ h, e = BagsError.partnerWalletNotFound h) ∨
       ∃ c, e = BagsError.transactionRejected c) := by
  refine ⟨?_, ?_, ?_⟩
  · cases hw : env.walletForTwitter handle with
    | none => simp [setupFeeSharing, hw]
    | some w =>
      simp only [setupFeeSharing, hw]
      rcases ht : (env.createFeeShareConfig
          { users := [⟨env.ownerWallet, a⟩, ⟨w, b⟩]
            payer := env.ownerWallet
            baseMint := m
            quoteMint := wSOLMint }).transaction with _ | tx
      · simp
      · rcases hs : sendTransaction env.conn tx with ⟨evs, res⟩
        cases res <;> simp [hs]
  · intro w hw
    simp only [setupFeeSharing, hw]
    rcases ht : (env.createFeeShareConfig
        { users := [⟨env.ownerWallet, a⟩, ⟨w, b⟩]
          payer := env.ownerWallet
          baseMint := m
          quoteMint := wSOLMint }).transaction with _ | tx
    · simp
    · rcases hs : sendTransaction env.conn tx with ⟨evs, res⟩
      cases res <;> simp [hs]
  · intro e he
    cases hw : env.walletForTwitter handle with
    | none =>
      simp only [setupFeeSharing, hw] at he
      simp at he
      exact Or.inl ⟨handle, he.symm⟩
    | some w =>
      simp only [setupFeeSharing, hw] at he
      rcases ht : (env.createFeeShareConfig
          { users := [⟨env.ownerWallet, a⟩, ⟨w, b⟩]
            payer := env.ownerWallet
            baseMint := m
            quoteMint := wSOLMint }).transaction with _ | tx
      · simp only [ht] at he
        simp at he
      · simp only [ht] at he
        rcases hs : sendTransaction env.conn tx with ⟨evs, res⟩
        rw [hs] at he
        cases res with
        | error e2 =>
          simp at he
          have hcl : ∀ e3, (sendTransaction env.conn tx).2 = Except.error e3 →
              ∃ c, e3 = BagsError.transactionRejected c := by
            intro e3 h3
            cases hc : (env.conn.confirm (env.conn.send tx)).err with
            | none => simp [sendTransaction, hc] at h3
            | some c =>
              simp [sendTransaction, hc] at h3
              exact ⟨c, h3.symm⟩
          have := hcl e2 (by rw [hs])
          subst he
          exact Or.inr this
        | ok s => simp at he

/-! ## C3: partial-failure behavior of claimFees (corrected) -/

/-- A position with claimable fees on token `mintA`. -/
def posA : ClaimablePosition := ⟨"mintA", 5, 0⟩

/-- A position with claimable fees on token `mintB`. -/
def posB : ClaimablePosition := ⟨"mintB", 3, 2⟩

/-- A connection on which the transaction with id 2 is rejected on-chain and
every other transaction confirms cleanly. -/
def connFailTx2 : Conn :=
  { latestBlockhash := ⟨"bh2", 20⟩
    send := fun t => Nat.repr t.id
    confirm := fun s =>
      if s = "2" then ⟨some (ChainErr.other "insufficient funds")⟩ else ⟨none⟩ }

/-- Two claimable positions; the first needs three claim transactions, of
which the second is rejected; the second position's single transaction
would succeed. -/
def envClaimAbort : Env :=
  { envFreshConfig with
    conn := connFailTx2
    positions := [posA, posB]
    getClaimTransaction := fun p =>
      if p.baseMint = "mintA" then [⟨1⟩, ⟨2⟩, ⟨3⟩] else [⟨4⟩] }

/-- C3 counterexample: when position A's second claim transaction fails, the
whole of `claimFees` stops: position B — the next, unrelated position — is
never requested nor submitted (its claim request and its transaction `⟨4⟩`
are absent from the trace), and the caller receives ONLY the error: the
signature already collected for transaction `⟨1⟩` is not returned. -/
theorem claimFees_partial_failure_counterexample :
    claimFees envClaimAbort none =
      ([NetEvent.claimTxRequest "mintA", NetEvent.txSend ⟨1⟩, NetEvent.txSend ⟨2⟩],
       Except.error (BagsError.transactionRejected (ChainErr.other "insufficient funds"))) ∧
    NetEvent.claimTxRequest "mintB" ∉ (claimFees envClaimAbort none).1 ∧
    NetEvent.txSend ⟨4⟩ ∉ (claimFees envClaimAbort none).1 := by
  refine ⟨rfl, by decide, by decide⟩

theorem claimPositionTxs_abort (env : Env) (pre : List Tx) (t : Tx) (post : List Tx)
    (e : BagsError)
    (hpre : ∀ t', t' ∈ pre → ∃ s, (sendTransaction env.conn t').2 = Except.ok s)
    (hfail : (sendTransaction env.conn t).2 = Except.error e) :
    claimPositionTxs env (pre ++ t :: post) =
      (pre.map NetEvent.txSend ++ [NetEvent.txSend t], Except.error e) := by
  induction pre with
  | nil =>
    rcases hs : sendTransaction env.conn t with ⟨evs, res⟩
    rw [hs] at hfail
    simp only at hfail
    have hevs : evs = [NetEvent.txSend t] := by
      have h := sendTransaction_fst env.conn t
      rw [hs] at h
      exact h
    subst hfail hevs
    simp [claimPositionTxs, hs]
  | cons t' pre ih =>
    obtain ⟨s, hs'⟩ := hpre t' (List.mem_cons_self t' pre)
    rcases hst : sendTransaction env.conn t' with ⟨evs', res'⟩
    rw [hst] at hs'
    simp only at hs'
    have hevs' : evs' = [NetEvent.txSend t'] := by
      have h := sendTransaction_fst env.conn t'
      rw [hst] at h
      exact h
    have ih' := ih (fun t'' ht'' => hpre t'' (List.mem_cons_of_mem _ ht''))
    subst hs' hevs'
    simp [claimPositionTxs, hst, ih']

/-- C3 (amended): when submitting one claim transaction of a position fails,
`claimFees` aborts entirely — it attempts neither the remaining transactions
of that position nor ANY later position — and the caller receives only the
propagated error: the signatures collected before the failure are lost, not
returned alongside it. -/
theorem claimFees_aborts_on_failure (env : Env) (filt : Option String)
    (p : ClaimablePosition) (rest : List ClaimablePosition)
    (pre : List Tx) (t : Tx) (post : List Tx) (e : BagsError)
    (hne : ¬ env.positions.length = 0)
    (htarget : targetPositions env filt = p :: rest)
    (hts : env.getClaimTransaction p = pre ++ t :: post)
    (hpre : ∀ t', t' ∈ pre → ∃ s, (sendTransaction env.conn t').2 = Except.ok s)
    (hfail : (sendTransaction env.conn t).2 = Except.error e) :
    claimFees env filt =
      (NetEvent.claimTxRequest p.baseMint ::
        (pre.map NetEvent.txSend ++ [NetEvent.txSend t]),
       Except.error e) := by
  have habort := claimPositionTxs_abort env pre t post e hpre hfail
  rw [claimFees, if_neg hne, htarget]
  simp [claimLoop, hts, habort]

theorem claimFees_aborts_on_failure_witness :
    claimFees envClaimAbort none =
      (NetEvent.claimTxRequest posA.baseMint ::
        (([⟨1⟩] : List Tx).map NetEvent.txSend ++ [NetEvent.txSend ⟨2⟩]),
       Except.error (BagsError.transactionRejected (ChainErr.other "insufficient funds"))) :=
  claimFees_aborts_on_failure envClaimAbort none posA [posB] [⟨1⟩] ⟨2⟩ [⟨3⟩]
    (BagsError.transactionRejected (ChainErr.other "insufficient funds"))
    (by decide) rfl rfl
    (by
      intro t' ht'
      have ht1 : t' = ⟨1⟩ := by simpa using ht'
      subst ht1
      exact ⟨"1", rfl⟩)
    rfl

/-! ## C9: claim aggregation touches only positions matching the filter -/

theorem claimPositionTxs_trace_mem (env : Env) (txs : List Tx) (ev : NetEvent)
    (hev : ev ∈ (claimPositionTxs env txs).1) :
    ∃ t, t ∈ txs ∧ ev = NetEvent.txSend t := by
  induction txs with
  | nil => simp [claimPositionTxs] at hev
  | cons t rest ih =>
    rcases hs : sendTransaction env.conn t with ⟨evs, res⟩
    have hevs : evs = [NetEvent.txSend t] := by
      have h := sendTransaction_fst env.conn t
      rw [hs] at h
      exact h
    subst hevs
    cases res with
    | error e =>
      simp only [claimPositionTxs, hs] at hev
      simp at hev
      exact ⟨t, List.mem_cons_self t rest, hev⟩
    | ok s =>
      rcases hrec : claimPositionTxs env rest with ⟨evs2, res2⟩
      have ihmem : ev ∈ evs2 → ∃ t', t' ∈ rest ∧ ev = NetEvent.txSend t' := by
        intro h
        apply ih
        rw [hrec]
        exact h
      cases res2 with
      | error e2 =>
        simp only [claimPositionTxs, hs, hrec] at hev
        simp at hev
        rcases hev with hev | hev
        · exact ⟨t, List.mem_cons_self t rest, hev⟩
        · obtain ⟨t', ht', hev'⟩ := ihmem hev
          exact ⟨t', List.mem_cons_of_mem t ht', hev'⟩
      | ok sigs =>
        simp only [claimPositionTxs, hs, hrec] at hev
        simp at hev
        rcases hev with hev | hev
        · exact ⟨t, List.mem_cons_self t rest, hev⟩
        · obtain ⟨t', ht', hev'⟩ := ihmem hev
          exact ⟨t', List.mem_cons_of_mem t ht', hev'⟩

theorem claimLoop_trace_mem (env : Env) (ps : List ClaimablePosition) (ev : NetEvent)
    (hev : ev ∈ (claimLoop env ps).1) :
    ∃ p, p ∈ ps ∧ (ev = NetEvent.claimTxRequest p.baseMint ∨
      ∃ t, t ∈ env.getClaimTransaction p ∧ ev = NetEvent.txSend t) := by
  induction ps with
  | nil => simp [claimLoop] at hev
  | cons p rest ih =>
    rcases hc : claimPositionTxs env (env.getClaimTransaction p) with ⟨evs, res⟩
    have hmemtx : ev ∈ evs →
        ∃ t, t ∈ env.getClaimTransaction p ∧ ev = NetEvent.txSend t := by
      intro h
      apply claimPositionTxs_trace_mem env _ ev
      rw [hc]
      exact h
    cases res with
    | error e =>
      simp only [claimLoop, hc] at hev
      simp at hev
      rcases hev with hev | hev
      · exact ⟨p, List.mem_cons_self p rest, Or.inl hev⟩
      · exact ⟨p, List.mem_cons_self p rest, Or.inr (hmemtx hev)⟩
    | ok sigs =>
      rcases hrec : claimLoop env rest with ⟨evs2, res2⟩
      have ihm : ev ∈ evs2 → ∃ p', p' ∈ rest ∧
          (ev = NetEvent.claimTxRequest p'.baseMint ∨
           ∃ t, t ∈ env.getClaimTransaction p' ∧ ev = NetEvent.txSend t) := by
        intro h
        apply ih
        rw [hrec]
        exact h
      cases res2 with
      | error e2 =>
        simp only [claimLoop, hc, hrec] at hev
        simp at hev
        rcases hev with hev | hev | hev
        · exact ⟨p, List.mem_cons_self p rest, Or.inl hev⟩
        · exact ⟨p, List.mem_cons_self p rest, Or.inr (hmemtx hev)⟩
        · obtain ⟨p', hp', hor⟩ := ihm hev
          exact ⟨p', List.mem_cons_of_mem p hp', hor⟩
      | ok sigs2 =>
        simp only [claimLoop, hc, hrec] at hev
        simp at hev
        rcases hev with hev | hev | hev
        · exact ⟨p, List.mem_cons_self p rest, Or.inl hev⟩
        · exact ⟨p, List.mem_cons_self p rest, Or.inr (hmemtx hev)⟩
        · obtain ⟨p', hp', hor⟩ := ihm hev
          exact ⟨p', List.mem_cons_of_mem p hp', hor⟩

theorem mem_targetPositions_some (env : Env) (m : String) (p : ClaimablePosition)
    (hp : p ∈ targetPositions env (some m)) :
    p ∈ env.positions ∧ p.baseMint = m := by
  simp [targetPositions, List.mem_filter] at hp
  exact hp

/-- C9: with a token filter, `claimFees` requests claim transactions only
for positions whose base mint equals the filter, submits only transactions
belonging to such positions, and leaves every position with a different base
mint entirely outside the processed set. -/
theorem claimFees_filter_only_matching (env : Env) (m : String) :
    (∀ b, NetEvent.claimTxRequest b ∈ (claimFees env (some m)).1 → b = m) ∧
    (∀ t, NetEvent.txSend t ∈ (claimFees env (some m)).1 →
       ∃ p, p ∈ env.positions ∧ p.baseMint = m ∧ t ∈ env.getClaimTransaction p) ∧
    (∀ p, p ∈ env.positions → ¬ p.baseMint = m → p ∉ targetPositions env (some m)) := by
  refine ⟨?_, ?_, ?_⟩
  · intro b hb
    by_cases h0 : env.positions.length = 0
    · simp [claimFees, h0] at hb
    · rw [claimFees, if_neg h0] at hb
      obtain ⟨p, hp, hor⟩ := claimLoop_trace_mem env _ _ hb
      obtain ⟨hpos, hbm⟩ := mem_targetPositions_some env m p hp
      rcases hor with h | ⟨t, ht, h⟩
      · rw [← hbm]
        injection h
      · exact absurd h (by simp)
  · intro t ht
    by_cases h0 : env.positions.length = 0
    · simp [claimFees, h0] at ht
    · rw [claimFees, if_neg h0] at ht
      obtain ⟨p, hp, hor⟩ := claimLoop_trace_mem env _ _ ht
      obtain ⟨hpos, hbm⟩ := mem_targetPositions_some env m p hp
      rcases hor with h | ⟨t', ht', h⟩
      · exact absurd h (by simp)
      · have : t' = t := by
          injection h with h'
          exact h'.symm
        subst this
        exact ⟨p, hpos, hbm, ht'⟩
  · intro p hpos hbm hp
    exact hbm (mem_targetPositions_some env m p hp).2

/-! ## C4: image-fetch failure behavior (corrected) -/

theorem imageFetches_getOrCreateConfig (env : Env) :
    imageFetches (getOrCreateConfig env).1 = [] := by
  rcases getOrCreateConfig_trace_shape env with h | ⟨t, h⟩ <;> simp [h, imageFetches]

/-- An environment whose image source answers every fetch with an HTTP 404
response (a non-success status whose body is still readable). -/
def envStatus404 : Env :=
  { envFreshConfig with fetch := fun _ => Except.ok ⟨404, [7]⟩ }

/-- Launch parameters supplying a remote image URL. -/
def paramsRemoteImage : TokenLaunchParams :=
  { name := "Test", symbol := "TST", description := "d",
    imageUrl := some "https://example.com/i.png" }

/-- C4 counterexample: when the remote fetch returns a NON-SUCCESS status
(HTTP 404), token-info creation does NOT fail — the source never inspects
the response status, so the error page's bytes are used as the image and
the whole launch succeeds. -/
theorem imageFetch_status_counterexample :
    envStatus404.fetch "https://example.com/i.png" = Except.ok ⟨404, [7]⟩ ∧
    (createTokenInfo envStatus404 paramsRemoteImage).2 =
      Except.ok ⟨"mint1", "meta1"⟩ ∧
    (launchToken envStatus404 paramsRemoteImage).2 =
      Except.ok
        { tokenMint := "mint1", signature := "sig9", metadataUrl := "meta1",
          bagsUrl := "https://bags.fm/mint1", configKey := "cfgKey1",
          feeShareWallet := none } := by
  refine ⟨rfl, rfl, rfl⟩

/-- C4 (amended): a required remote fetch fails the launch ONLY when the
fetch itself errors (a network error): the raw error propagates unchanged —
without any local retry, exactly one fetch being attempted — through
token-info creation to the caller of `launchToken`.  A response with a
non-success status is not detected (no status check exists), so it does not
fail the launch. -/
theorem imageFetch_error_propagates (env : Env) (params : TokenLaunchParams)
    (url : String) (e : String)
    (hurl : params.imageUrl = some url ∨
      (params.imageUrl = none ∧ params.imageFile = none ∧ url = defaultImage))
    (hfetch : env.fetch url = Except.error e)
    (hconf : (getOrCreateConfig env).2 = Except.ok env.configResp) :
    (createTokenInfo env params).2 = Except.error (BagsError.fetchFailed e) ∧
    imageFetches (createTokenInfo env params).1 = [url] ∧
    (launchToken env params).2 = Except.error (BagsError.fetchFailed e) ∧
    imageFetches (launchToken env params).1 = [url] := by
  have hres : resolveImage env params =
      ([NetEvent.fetchImage url], Except.error (BagsError.fetchFailed e)) := by
    rcases hurl with h | ⟨h1, h2, h3⟩
    · simp [resolveImage, h, hfetch]
    · subst h3
      simp [resolveImage, h1, h2, hfetch]
  have hcti : createTokenInfo env params =
      ([NetEvent.fetchImage url], Except.error (BagsError.fetchFailed e)) := by
    simp [createTokenInfo, hres]
  have hif1 := imageFetches_getOrCreateConfig env
  rcases hg : getOrCreateConfig env with ⟨evs1, res1⟩
  rw [hg] at hconf hif1
  simp only at hconf hif1
  subst hconf
  refine ⟨by rw [hcti], by rw [hcti]; simp [imageFetches], ?_, ?_⟩
  · simp [launchToken, hg, hcti]
  · simp only [launchToken, hg, hcti]
    rw [imageFetches] at hif1 ⊢
    simp [List.filterMap_append, hif1, imageFetches]

/-- An environment whose image source rejects every fetch with a network
error. -/
def envFetchNetworkError : Env :=
  { envFreshConfig with fetch := fun _ => Except.error "network down" }

theorem imageFetch_error_propagates_witness :
    (createTokenInfo envFetchNetworkError paramsRemoteImage).2 =
      Except.error (BagsError.fetchFailed "network down") ∧
    imageFetches (createTokenInfo envFetchNetworkError paramsRemoteImage).1 =
      ["https://example.com/i.png"] ∧
    (launchToken envFetchNetworkError paramsRemoteImage).2 =
      Except.error (BagsError.fetchFailed "network down") ∧
    imageFetches (launchToken envFetchNetworkError paramsRemoteImage).1 =
      ["https://example.com/i.png"] :=
  imageFetch_error_propagates envFetchNetworkError paramsRemoteImage
    "https://example.com/i.png" "network down" (Or.inl rfl) rfl rfl

/-! ## C10: an explicit 0 is indistinguishable from an absent value -/

/-- `launchToken` reads its parameters only through the listed observations;
two parameter records agreeing on them are processed identically. -/
theorem launchToken_params_ext (env : Env) (p q : TokenLaunchParams)
    (hname : p.name = q.name) (hsym : p.symbol = q.symbol)
    (hdesc : p.description = q.description)
    (hiurl : p.imageUrl = q.imageUrl) (hifile : p.imageFile = q.imageFile)
    (htw : p.twitter = q.twitter) (htg : p.telegram = q.telegram)
    (hws : p.website = q.website)
    (hfst : p.feeShareTwitter = q.feeShareTwitter)
    (hbuy : orDefaultRat p.initialBuyAmountSol (1 / 100) =
            orDefaultRat q.initialBuyAmountSol (1 / 100))
    (hcb : orDefaultInt p.creatorFeeBps 1000 = orDefaultInt q.creatorFeeBps 1000)
    (hfb : orDefaultInt p.feeShareBps 9000 = orDefaultInt q.feeShareBps 9000) :
    launchToken env p = launchToken env q := by
  have hcti : createTokenInfo env p = createTokenInfo env q := by
    unfold createTokenInfo resolveImage
    rw [hname, hsym, hdesc, hiurl, hifile, htw, htg, hws]
  unfold launchToken
  rw [hcti, hfst, hbuy, hcb, hfb]

/-- C10: at the public `launchToken` interface an explicitly supplied 0 is
indistinguishable from an absent value: `initialBuyAmountSol = 0` is
replaced by the default 0.01, and — with fee sharing — `creatorFeeBps = 0`
by 1000 and `feeShareBps = 0` by 9000, so a zero initial buy or a zero
share for either party cannot be requested. -/
theorem launchToken_zero_is_absent (env : Env) (p : TokenLaunchParams) :
    launchToken env { p with initialBuyAmountSol := some 0 } =
      launchToken env { p with initialBuyAmountSol := none } ∧
    launchToken env { p with creatorFeeBps := some 0 } =
      launchToken env { p with creatorFeeBps := none } ∧
    launchToken env { p with feeShareBps := some 0 } =
      launchToken env { p with feeShareBps := none } ∧
    orDefaultRat (some 0) (1 / 100) = 1 / 100 ∧
    orDefaultInt (some 0) 1000 = 1000 ∧
    orDefaultInt (some 0) 9000 = 9000 := by
  refine ⟨?_, ?_, ?_, by simp [orDefaultRat], by simp [orDefaultInt], by simp [orDefaultInt]⟩
  · exact launchToken_params_ext env _ _ rfl rfl rfl rfl rfl rfl rfl rfl rfl
      (by simp [orDefaultRat]) rfl rfl
  · exact launchToken_params_ext env _ _ rfl rfl rfl rfl rfl rfl rfl rfl rfl rfl
      (by simp [orDefaultInt]) rfl
  · exact launchToken_params_ext env _ _ rfl rfl rfl rfl rfl rfl rfl rfl rfl rfl rfl
      (by simp [orDefaultInt])
